import Mathlib

/-!
Verification development for the EGB240 digital voice recorder
(`main.c` v1.1, and the two later revisions of the same file, v1.2 and
v1.3).  The shallow embedding below translates the supervisory state
machine, the two circular-buffer callbacks (`pageFull`, `pageEmpty`),
the record/playback initiation code, and the TIMER4 overflow interrupt
handler into pure Lean functions over an explicit state record.

Machine integers are modelled as `Nat` with an explicit `% 2^w`
wherever C unsigned wrap-around can occur (the `uint32_t` counter
`data_amount`, the `uint16_t` counter `pageCount`).  Bytes obtained
from the external `buffer_dequeue()` are reduced `% 256` at the store,
reflecting the `uint8_t` return type of that collaborator.  LED and
console writes are pure I/O with no feedback into control flow and are
not modelled; calls into the external collaborator modules (buffer,
WAVE/storage, ADC driver, PWM timer) are recorded as an event trace.

Unless a definition says otherwise, it embeds the v1.3 revision
(`src/unnamed/part_001`), the latest source; where an older revision
differs on a claim-relevant point a separate, suffixed definition
embeds that revision.
-/

set_option maxRecDepth 2000

namespace DVR

/-- Modulus of the `uint32_t` type (used by `data_amount`). -/
def M32 : Nat := 2 ^ 32

/-- Modulus of the `uint16_t` type (used by `pageCount`). -/
def M16 : Nat := 2 ^ 16

/-- Source constant `pageSize` (512 samples per buffer page). -/
def pageSize : Nat := 512

/-- Enumerator `DVR_STOPPED` of the anonymous state enum. -/
def DVR_STOPPED : Nat := 0

/-- Enumerator `DVR_RECORDING` of the anonymous state enum. -/
def DVR_RECORDING : Nat := 1

/-- Enumerator `DVR_PLAYING` of the anonymous state enum. -/
def DVR_PLAYING : Nat := 2

/-- Calls into the external collaborator modules, recorded as a trace
so that the order of side effects of a loop iteration is observable. -/
inductive Event where
  | bufferReset
  | waveCreate
  | adcStart
  | adcStop
  | waveOpen
  | waveRead
  | waveWrite
  | waveClose
  | startPwm
  | stopPwm
deriving DecidableEq

/-- The program state: the global variables of `main.c` (all revisions
share this layout), the loop-local `state` variable of `main`, and the
observable state of the external collaborators needed by the claims
(whether the ADC driver and the TIMER4 overflow interrupt are running,
the last value written to the `OCR4B` duty-cycle register, the file
read position, the sample queue owned by the circular buffer, the
trace of duty-cycle values emitted, and the collaborator-call trace). -/
structure St where
  pageCount : Nat
  newPage : Nat
  stop : Nat
  data_amount : Nat
  played : Nat
  first_que : Nat
  second_que : Nat
  first_played : Nat
  second_played : Nat
  state : Nat
  adcOn : Bool
  pwmOn : Bool
  ocr4b : Nat
  filePos : Nat
  buffer : List Nat
  emitted : List Nat
  events : List Event
deriving DecidableEq

/-- The state at entry to the main loop: every global zero-initialised
except `played = 1` (the v1.2/v1.3 initialiser), `OCR4B` at the 50%
duty cycle written by `set_pwm()`, the interrupt and the ADC off
(`stop_pwm()` runs before the loop), and the machine in `DVR_STOPPED`. -/
def St0 : St :=
  { pageCount := 0, newPage := 0, stop := 0, data_amount := 0,
    played := 1, first_que := 0, second_que := 0,
    first_played := 0, second_played := 0,
    state := DVR_STOPPED, adcOn := false, pwmOn := false,
    ocr4b := 0x80, filePos := 0, buffer := [], emitted := [], events := [] }

/-- The polled button inputs of one loop iteration, already converted
to "pressed" booleans (`BIT_IS_SET(~PINF, PF5/PF4/PF6)`). -/
structure Buttons where
  recBtn : Bool
  playBtn : Bool
  stopBtn : Bool
deriving DecidableEq

/-- Embeds the C store `OCR4B = (first_que+second_que)/2.0`: the two
byte operands are added in `int` arithmetic (no overflow), divided by
the `double` literal `2.0` — exact, every half-integer up to 255 is
representable — and the nonnegative result is truncated toward zero
(floored) by the conversion into the 8-bit register. -/
def ocr4b_mid (a b : Nat) : Nat := ⌊(((a : ℚ) + (b : ℚ)) / 2 : ℚ)⌋₊

/-- Embeds `ISR(TIMER4_OVF_vect)` of v1.3 (`src/unnamed/part_001`,
lines 298-324; v1.2 is identical): pre-decrement `data_amount` with
`uint32_t` wrap-around and test the decremented value; while positive,
either dequeue a fresh sample pair (when `played` is set) or emit the
next of the three output values; once zero, clear `newPage`, raise
`stop` and call `stop_pwm()`. -/
def tick (s : St) : St :=
  let d := (s.data_amount + (M32 - 1)) % M32
  if 0 < d then
    if s.played ≠ 0 then
      { s with data_amount := d,
               first_que := s.buffer.headD 0 % 256,
               second_que := s.buffer.tail.headD 0 % 256,
               buffer := s.buffer.tail.tail,
               first_played := 0, second_played := 0, played := 0 }
    else if s.first_played = 0 then
      { s with data_amount := d, ocr4b := s.first_que,
               emitted := s.emitted ++ [s.first_que], first_played := 1 }
    else if s.second_played = 0 then
      { s with data_amount := d, ocr4b := ocr4b_mid s.first_que s.second_que,
               emitted := s.emitted ++ [ocr4b_mid s.first_que s.second_que],
               second_played := 1 }
    else
      { s with data_amount := d, ocr4b := s.second_que,
               emitted := s.emitted ++ [s.second_que], played := 1 }
  else
    { s with data_amount := d, newPage := 0, stop := 1, pwmOn := false }

/-- Embeds `pageFull()` (textually identical in all three revisions):
`uint16_t` pre-decrement of `pageCount`; when the decremented value is
zero, stop the ADC driver and raise `stop`, otherwise raise `newPage`. -/
def pageFull (s : St) : St :=
  let pc := (s.pageCount + (M16 - 1)) % M16
  if pc = 0 then
    { s with pageCount := pc, adcOn := false, stop := 1,
             events := s.events ++ [Event.adcStop] }
  else
    { s with pageCount := pc, newPage := 1 }

/-- Embeds `pageEmpty()` of v1.2/v1.3: raise `newPage` when
`data_amount > 4*pageSize` (= 2048), otherwise do nothing. -/
def pageEmpty (s : St) : St :=
  if 4 * pageSize < s.data_amount then { s with newPage := 1 } else s

/-- Embeds `pageEmpty()` of v1.1 (`src/main.c`, lines 172-184): same
shape but the threshold is `512`, a single page-width. -/
def pageEmpty_v11 (s : St) : St :=
  if 512 < s.data_amount then { s with newPage := 1 } else s

/-- Embeds `dvr_record()`: `buffer_reset()`, `pageCount = 305`,
`newPage = 0`, `wave_create()`, `adc_start()` (LED writes omitted). -/
def dvr_record (s : St) : St :=
  { s with buffer := [], pageCount := 305, newPage := 0, adcOn := true,
           events := s.events ++ [Event.bufferReset, Event.waveCreate, Event.adcStart] }

/-- Embeds one `wave_read(buffer_writePage(), pageSize)` call: the
next 512 stored samples (fewer at end of file) are appended to the
buffer's sample queue and the read position advances one page. -/
def wave_read1 (file : List Nat) (s : St) : St :=
  { s with buffer := s.buffer ++ List.take pageSize (List.drop s.filePos file),
           filePos := s.filePos + pageSize,
           events := s.events ++ [Event.waveRead] }

/-- Embeds the play branch of `case DVR_STOPPED` (v1.3 lines 218-233):
`buffer_reset()`, `newPage = 0`, `data_amount = wave_open()*2+1` in
`uint32_t` arithmetic (`wave_open` returns the stored sample count and
resets the read position), two page pre-reads, `start_pwm()`, and the
transition to `DVR_PLAYING`. -/
def playStart (file : List Nat) (s : St) : St :=
  let s1 := { s with buffer := [], newPage := 0,
                     data_amount := (file.length * 2 + 1) % M32, filePos := 0,
                     events := s.events ++ [Event.bufferReset, Event.waveOpen] }
  let s2 := wave_read1 file (wave_read1 file s1)
  { s2 with pwmOn := true, state := DVR_PLAYING,
            events := s2.events ++ [Event.startPwm] }

/-- Embeds `case DVR_STOPPED` of the main loop (v1.3 lines 210-234):
two independently tested button branches — record first, then play. -/
def stoppedStep (file : List Nat) (b : Buttons) (s : St) : St :=
  let s1 := if b.recBtn then { dvr_record s with state := DVR_RECORDING } else s
  if b.playBtn then playStart file s1 else s1

/-- Embeds `case DVR_RECORDING` (v1.3 lines 235-255): the stop button
sets `pageCount = 1`; then `newPage` has priority over `stop`; the
`stop` branch writes the final page, closes the file and returns to
`DVR_STOPPED`.  (The dangling `debunce(PF5)` call resolves to no
defined function and is not modelled.) -/
def recordingStep (b : Buttons) (s : St) : St :=
  let s1 := if b.stopBtn then { s with pageCount := 1 } else s
  if s1.newPage ≠ 0 then
    { s1 with newPage := 0, buffer := s1.buffer.drop pageSize,
              events := s1.events ++ [Event.waveWrite] }
  else if s1.stop ≠ 0 then
    { s1 with stop := 0, buffer := s1.buffer.drop pageSize,
              events := s1.events ++ [Event.waveWrite, Event.waveClose],
              state := DVR_STOPPED }
  else s1

/-- Embeds `case DVR_PLAYING` (v1.3 lines 256-280): the stop button
raises `stop`, clears `newPage` and calls `stop_pwm()`; then `newPage`
(refill one page) has priority over `stop` (close file, go stopped). -/
def playingStep (file : List Nat) (b : Buttons) (s : St) : St :=
  let s1 :=
    if b.stopBtn then
      { s with stop := 1, newPage := 0, pwmOn := false,
               events := s.events ++ [Event.stopPwm] }
    else s
  if s1.newPage ≠ 0 then
    wave_read1 file { s1 with newPage := 0 }
  else if s1.stop ≠ 0 then
    { s1 with stop := 0, state := DVR_STOPPED,
              events := s1.events ++ [Event.waveClose] }
  else s1

/-- Embeds one iteration of the `for(;;)` loop: dispatch on `state`,
any out-of-range value forced back to `DVR_STOPPED`. -/
def loopStep (file : List Nat) (b : Buttons) (s : St) : St :=
  if s.state = DVR_STOPPED then stoppedStep file b s
  else if s.state = DVR_RECORDING then recordingStep b s
  else if s.state = DVR_PLAYING then playingStep file b s
  else { s with state := DVR_STOPPED }

/-- One possible transition of the whole system: a supervisory loop
iteration (any button input), a TIMER4 overflow interrupt (only while
`start_pwm()` has enabled it), a page-full notification (only while
the ADC driver is filling pages), or a page-empty notification (only
while playback is consuming pages). -/
inductive Step (file : List Nat) : St → St → Prop where
  | loop (b : Buttons) (s : St) : Step file s (loopStep file b s)
  | isr (s : St) (h : s.pwmOn = true) : Step file s (tick s)
  | pgFull (s : St) (h : s.adcOn = true) : Step file s (pageFull s)
  | pgEmpty (s : St) (h : s.pwmOn = true) : Step file s (pageEmpty s)

/-- States reachable from the post-`init()` state. -/
def Reachable (file : List Nat) (s : St) : Prop :=
  Relation.ReflTransGen (Step file) St0 s

/-- The value trace the v1.3 interrupt handler emits for a stored
sample list: each full pair contributes its first byte, the floored
midpoint, then its second byte; a trailing unpaired sample contributes
only itself.  (Proved below to coincide with the handler's output.) -/
def interp : List Nat → List Nat
  | [] => []
  | [a] => [a % 256]
  | a :: b :: rest =>
      a % 256 :: ocr4b_mid (a % 256) (b % 256) :: b % 256 :: interp rest

/-! Concrete states and inputs used to instantiate the theorems below. -/

/-- A two-sample stored file. -/
def fileW : List Nat := [3, 6]

/-- Play button pressed, nothing else. -/
def bPlayW : Buttons := { recBtn := false, playBtn := true, stopBtn := false }

/-- Stop button pressed, nothing else. -/
def bStopW : Buttons := { recBtn := false, playBtn := false, stopBtn := true }

/-- Record and play pressed together. -/
def bBothW : Buttons := { recBtn := true, playBtn := true, stopBtn := false }

/-- The state right after a play-button iteration from the initial state. -/
def stPlayW : St := loopStep fileW bPlayW St0

/-- A mid-playback state with a staged pair due: fetch phase, three
queued samples, plenty of remaining ticks. -/
def stCycleW : St :=
  { St0 with played := 1, data_amount := 9, buffer := [10, 20, 30], pwmOn := true }

/-- A playback-session start state for a one-sample file
(`data_amount = 1*2+1`). -/
def stOddX : St :=
  { St0 with played := 1, data_amount := 3, buffer := [7], pwmOn := true }

/-- A playback-session start state for a four-sample file
(`data_amount = 4*2+1`). -/
def stSessW : St :=
  { St0 with played := 1, data_amount := 9, buffer := [7, 9, 200, 50], pwmOn := true }

/-- A recording state with three pages left to capture. -/
def stRecW : St := { St0 with pageCount := 3, adcOn := true }

/-- A playback state with two pages of samples not yet consumed. -/
def stEmptyX : St := { St0 with data_amount := 1024 }

/-- A playback state with nearly ten pages not yet consumed. -/
def stEmptyW : St := { St0 with data_amount := 5000 }

/-- A stopped state left behind by a playback session halted mid-pair:
the cursor sits after its third phase (`played = 0`, both halves
marked played) with stale bytes staged. -/
def stStaleX : St :=
  { St0 with played := 0, first_played := 1, second_played := 1,
             first_que := 99, second_que := 11 }

/-- A three-sample stored file. -/
def fileStaleX : List Nat := [1, 2, 3]

/-- The state after pressing play in the stale stopped state. -/
def stStaleX2 : St := loopStep fileStaleX bPlayW stStaleX

/-!  ## Arithmetic helpers for the wrapped decrements  -/

theorem iterate_3 {α : Type} (f : α → α) (x : α) : f^[3] x = f (f (f x)) := by
  rw [show (3 : Nat) = 2 + 1 from rfl, Function.iterate_succ_apply,
      show (2 : Nat) = 1 + 1 from rfl, Function.iterate_succ_apply,
      Function.iterate_one]

theorem iterate_4 {α : Type} (f : α → α) (x : α) : f^[4] x = f (f (f (f x))) := by
  rw [show (4 : Nat) = 3 + 1 from rfl, Function.iterate_succ_apply, iterate_3]

theorem dec32_eq {x : Nat} (h1 : 1 ≤ x) (h2 : x < M32) :
    (x + (M32 - 1)) % M32 = x - 1 := by
  have hm : M32 = 4294967296 := by norm_num [M32]
  rw [hm] at h2 ⊢
  omega

theorem dec16_eq {x : Nat} (h1 : 1 ≤ x) (h2 : x < M16) :
    (x + (M16 - 1)) % M16 = x - 1 := by
  have hm : M16 = 65536 := by norm_num [M16]
  rw [hm] at h2 ⊢
  omega

theorem odd_mod_M32 (n : Nat) : 1 ≤ (n * 2 + 1) % M32 := by
  have hm : M32 = 4294967296 := by norm_num [M32]
  rw [hm]
  omega

theorem odd_mod_M32_lt (n : Nat) : (n * 2 + 1) % M32 < M32 := by
  have hm : M32 = 4294967296 := by norm_num [M32]
  rw [hm]
  omega

/-- The C midpoint store computes the floor of the arithmetic mean,
i.e. Nat division of the sum by two. -/
theorem ocr4b_mid_eq (a b : Nat) : ocr4b_mid a b = (a + b) / 2 := by
  unfold ocr4b_mid
  have h : ((a : ℚ) + (b : ℚ)) = ((a + b : Nat) : ℚ) := by push_cast; ring
  rw [h]
  have h2 : ((2 : ℚ)) = ((2 : Nat) : ℚ) := by norm_num
  rw [h2, Nat.floor_div_eq_div]

/-!  ## Single-tick behaviour of the playback interrupt handler  -/

theorem tick_fetch (s : St) (hp : s.played ≠ 0)
    (h1 : 2 ≤ s.data_amount) (h2 : s.data_amount < M32) :
    (tick s).data_amount = s.data_amount - 1 ∧
    (tick s).played = 0 ∧
    (tick s).first_played = 0 ∧
    (tick s).second_played = 0 ∧
    (tick s).first_que = s.buffer.headD 0 % 256 ∧
    (tick s).second_que = s.buffer.tail.headD 0 % 256 ∧
    (tick s).buffer = s.buffer.tail.tail ∧
    (tick s).emitted = s.emitted ∧
    (tick s).stop = s.stop ∧
    (tick s).pwmOn = s.pwmOn := by
  have hd : (s.data_amount + (M32 - 1)) % M32 = s.data_amount - 1 :=
    dec32_eq (by omega) h2
  simp only [tick, hd]
  rw [if_pos (show 0 < s.data_amount - 1 by omega), if_pos hp]
  exact ⟨rfl, rfl, rfl, rfl, rfl, rfl, rfl, rfl, rfl, rfl⟩

theorem tick_emitA (s : St) (hp : s.played = 0) (hf : s.first_played = 0)
    (h1 : 2 ≤ s.data_amount) (h2 : s.data_amount < M32) :
    (tick s).data_amount = s.data_amount - 1 ∧
    (tick s).played = 0 ∧
    (tick s).first_played = 1 ∧
    (tick s).second_played = s.second_played ∧
    (tick s).first_que = s.first_que ∧
    (tick s).second_que = s.second_que ∧
    (tick s).buffer = s.buffer ∧
    (tick s).emitted = s.emitted ++ [s.first_que] ∧
    (tick s).stop = s.stop ∧
    (tick s).pwmOn = s.pwmOn ∧
    (tick s).ocr4b = s.first_que := by
  have hd : (s.data_amount + (M32 - 1)) % M32 = s.data_amount - 1 :=
    dec32_eq (by omega) h2
  simp only [tick, hd]
  rw [if_pos (show 0 < s.data_amount - 1 by omega),
      if_neg (show ¬s.played ≠ 0 by omega), if_pos hf]
  exact ⟨rfl, hp, rfl, rfl, rfl, rfl, rfl, rfl, rfl, rfl, rfl⟩

theorem tick_emitMid (s : St) (hp : s.played = 0) (hf : s.first_played ≠ 0)
    (hs : s.second_played = 0)
    (h1 : 2 ≤ s.data_amount) (h2 : s.data_amount < M32) :
    (tick s).data_amount = s.data_amount - 1 ∧
    (tick s).played = 0 ∧
    (tick s).first_played = s.first_played ∧
    (tick s).second_played = 1 ∧
    (tick s).first_que = s.first_que ∧
    (tick s).second_que = s.second_que ∧
    (tick s).buffer = s.buffer ∧
    (tick s).emitted = s.emitted ++ [ocr4b_mid s.first_que s.second_que] ∧
    (tick s).stop = s.stop ∧
    (tick s).pwmOn = s.pwmOn ∧
    (tick s).ocr4b = ocr4b_mid s.first_que s.second_que := by
  have hd : (s.data_amount + (M32 - 1)) % M32 = s.data_amount - 1 :=
    dec32_eq (by omega) h2
  simp only [tick, hd]
  rw [if_pos (show 0 < s.data_amount - 1 by omega),
      if_neg (show ¬s.played ≠ 0 by omega), if_neg hf, if_pos hs]
  exact ⟨rfl, hp, rfl, rfl, rfl, rfl, rfl, rfl, rfl, rfl, rfl⟩

theorem tick_emitB (s : St) (hp : s.played = 0) (hf : s.first_played ≠ 0)
    (hs : s.second_played ≠ 0)
    (h1 : 2 ≤ s.data_amount) (h2 : s.data_amount < M32) :
    (tick s).data_amount = s.data_amount - 1 ∧
    (tick s).played = 1 ∧
    (tick s).first_played = s.first_played ∧
    (tick s).second_played = s.second_played ∧
    (tick s).first_que = s.first_que ∧
    (tick s).second_que = s.second_que ∧
    (tick s).buffer = s.buffer ∧
    (tick s).emitted = s.emitted ++ [s.second_que] ∧
    (tick s).stop = s.stop ∧
    (tick s).pwmOn = s.pwmOn ∧
    (tick s).ocr4b = s.second_que := by
  have hd : (s.data_amount + (M32 - 1)) % M32 = s.data_amount - 1 :=
    dec32_eq (by omega) h2
  simp only [tick, hd]
  rw [if_pos (show 0 < s.data_amount - 1 by omega),
      if_neg (show ¬s.played ≠ 0 by omega), if_neg hf, if_neg hs]
  exact ⟨rfl, rfl, rfl, rfl, rfl, rfl, rfl, rfl, rfl, rfl, rfl⟩

theorem tick_halt (s : St) (h1 : s.data_amount = 1) :
    (tick s).data_amount = 0 ∧
    (tick s).stop = 1 ∧
    (tick s).pwmOn = false ∧
    (tick s).newPage = 0 ∧
    (tick s).emitted = s.emitted ∧
    (tick s).ocr4b = s.ocr4b ∧
    (tick s).buffer = s.buffer ∧
    (tick s).played = s.played ∧
    (tick s).first_que = s.first_que ∧
    (tick s).second_que = s.second_que ∧
    (tick s).first_played = s.first_played ∧
    (tick s).second_played = s.second_played := by
  have hd : (s.data_amount + (M32 - 1)) % M32 = 0 := by
    rw [h1]
    norm_num [M32]
  simp only [tick, hd]
  rw [if_neg (show ¬0 < 0 by omega)]
  exact ⟨rfl, rfl, rfl, rfl, rfl, rfl, rfl, rfl, rfl, rfl, rfl, rfl⟩

/-- Four consecutive interrupt ticks starting in the fetch phase
consume one sample pair: the first tick dequeues and emits nothing,
the next three emit the first byte, the floored midpoint and the
second byte, and the cursor is back in the fetch phase. -/
theorem tick_cycle (s : St) (hp : s.played ≠ 0)
    (h1 : 5 ≤ s.data_amount) (h2 : s.data_amount < M32) :
    (tick^[4] s).data_amount = s.data_amount - 4 ∧
    (tick^[4] s).played = 1 ∧
    (tick^[4] s).buffer = s.buffer.tail.tail ∧
    (tick^[4] s).emitted = s.emitted ++
      [s.buffer.headD 0 % 256,
       ocr4b_mid (s.buffer.headD 0 % 256) (s.buffer.tail.headD 0 % 256),
       s.buffer.tail.headD 0 % 256] ∧
    (tick^[4] s).stop = s.stop ∧
    (tick^[4] s).pwmOn = s.pwmOn := by
  have h4 : tick^[4] s = tick (tick (tick (tick s))) := iterate_4 tick s
  obtain ⟨d1, p1, fp1, sp1, fq1, sq1, b1, e1, st1, pw1⟩ :=
    tick_fetch s hp (by omega) h2
  obtain ⟨d2, p2, fp2, sp2, fq2, sq2, b2, e2, st2, pw2, _⟩ :=
    tick_emitA (tick s) p1 fp1 (by omega) (by omega)
  obtain ⟨d3, p3, fp3, sp3, fq3, sq3, b3, e3, st3, pw3, _⟩ :=
    tick_emitMid (tick (tick s)) p2 (by omega) (by rw [sp2, sp1])
      (by omega) (by omega)
  obtain ⟨d4, p4, fp4, sp4, fq4, sq4, b4, e4, st4, pw4, _⟩ :=
    tick_emitB (tick (tick (tick s))) p3 (by omega) (by omega)
      (by omega) (by omega)
  rw [h4]
  refine ⟨by omega, p4, ?_, ?_, ?_, ?_⟩
  · rw [b4, b3, b2, b1]
  · simp only [e4, e3, e2, e1, sq4, sq3, sq2, sq1, fq4, fq3, fq2, fq1]
    simp [List.append_assoc]
  · rw [st4, st3, st2, st1]
  · rw [pw4, pw3, pw2, pw1]

/-- Length of the expected emission trace: `3*N/2` (Nat division). -/
theorem interp_length : ∀ l : List Nat, (interp l).length = 3 * l.length / 2
  | [] => by simp [interp]
  | [a] => by simp [interp]
  | a :: b :: rest => by
      have ih := interp_length rest
      simp only [interp, List.length_cons]
      omega

/-- Head of the expected emission trace: the first stored byte. -/
theorem interp_head : ∀ l : List Nat,
    (interp l).head? = l.head?.map (fun x => x % 256)
  | [] => by simp [interp]
  | [a] => by simp [interp]
  | a :: b :: rest => by simp [interp]

/-- The expected emission trace of a nonempty list is nonempty. -/
theorem interp_ne_nil : ∀ l : List Nat, l ≠ [] → interp l ≠ []
  | [], h => absurd rfl h
  | [a], _ => by simp [interp]
  | a :: b :: rest, _ => by simp [interp]

/-- Last element of the expected emission trace: the last stored byte. -/
theorem interp_getLast : ∀ l : List Nat,
    (interp l).getLast? = l.getLast?.map (fun x => x % 256)
  | [] => by simp [interp]
  | [a] => by simp [interp]
  | a :: b :: [] => by simp [interp]
  | a :: b :: c :: t => by
      have ih := interp_getLast (c :: t)
      have hne : interp (c :: t) ≠ [] := interp_ne_nil _ (by simp)
      obtain ⟨y, ys, hy⟩ : ∃ y ys, interp (c :: t) = y :: ys := by
        cases hx : interp (c :: t) with
        | nil => exact absurd hx hne
        | cons y ys => exact ⟨y, ys, rfl⟩
      show (interp (a :: b :: c :: t)).getLast? = _
      rw [show interp (a :: b :: c :: t) =
            a % 256 :: ocr4b_mid (a % 256) (b % 256) :: b % 256 ::
              interp (c :: t) from rfl]
      rw [hy, List.getLast?_cons_cons, List.getLast?_cons_cons,
          List.getLast?_cons_cons, ← hy, ih,
          List.getLast?_cons_cons, List.getLast?_cons_cons]

/-- A playback session: starting from the fetch phase with the whole
stored sample list queued and `data_amount = 2*N+1`, running the
handler for all `2*N+1` ticks emits exactly the `interp` trace, then
raises the completion flag, halts the interrupt and clears `newPage`. -/
theorem session_run : ∀ (l : List Nat) (s : St),
    s.played ≠ 0 → s.data_amount = 2 * l.length + 1 → s.buffer = l →
    2 * l.length + 1 < M32 →
    (tick^[2 * l.length + 1] s).emitted = s.emitted ++ interp l ∧
    (tick^[2 * l.length + 1] s).stop = 1 ∧
    (tick^[2 * l.length + 1] s).pwmOn = false ∧
    (tick^[2 * l.length + 1] s).newPage = 0
  | [], s, hp, hd, hb, hm => by
      obtain ⟨_, hstop, hpwm, hnp, hem, _⟩ := tick_halt s (by simpa using hd)
      simpa [interp] using ⟨hem, hstop, hpwm, hnp⟩
  | [a], s, hp, hd, hb, hm => by
      have hlen : (2 : Nat) * List.length [a] + 1 = 3 := by simp
      rw [hlen] at hd hm ⊢
      have h3 : tick^[3] s = tick (tick (tick s)) := iterate_3 tick s
      obtain ⟨d1, p1, fp1, sp1, fq1, sq1, b1, e1, st1, pw1⟩ :=
        tick_fetch s hp (by omega) (by omega)
      obtain ⟨d2, p2, fp2, sp2, fq2, sq2, b2, e2, st2, pw2, _⟩ :=
        tick_emitA (tick s) p1 fp1 (by omega) (by omega)
      obtain ⟨_, hstop, hpwm, hnp, hem, _⟩ :=
        tick_halt (tick (tick s)) (by omega)
      rw [h3]
      refine ⟨?_, hstop, hpwm, hnp⟩
      simp only [hem, e2, e1, fq2, fq1, hb]
      simp [interp]
  | a :: b :: rest, s, hp, hd, hb, hm => by
      have hlen : (a :: b :: rest).length = rest.length + 2 := by
        simp [List.length_cons]
      have hd5 : 5 ≤ s.data_amount := by rw [hd, hlen]; omega
      have hdm : s.data_amount < M32 := by rw [hd]; omega
      obtain ⟨cd, cp, cb, ce, cst, cpw⟩ := tick_cycle s hp hd5 hdm
      have hsplit : 2 * (a :: b :: rest).length + 1 =
          (2 * rest.length + 1) + 4 := by rw [hlen]; omega
      have hiter : tick^[2 * (a :: b :: rest).length + 1] s =
          tick^[2 * rest.length + 1] (tick^[4] s) := by
        rw [hsplit, Function.iterate_add_apply]
      obtain ⟨ihe, ihs, ihp, ihn⟩ :=
        session_run rest (tick^[4] s) (by omega)
          (by rw [cd, hd, hlen]; omega)
          (by rw [cb, hb]; simp)
          (by rw [hlen] at hm; omega)
      rw [hiter]
      refine ⟨?_, ihs, ihp, ihn⟩
      rw [ihe, ce, hb]
      simp [interp, List.append_assoc]

/-!  ## Reachability invariant: the remaining-sample counter is
positive (and in `uint32_t` range) whenever the interrupt is armed  -/

/-- The counter invariant maintained by every system transition. -/
def Inv (s : St) : Prop :=
  s.data_amount < M32 ∧ (s.pwmOn = true → 1 ≤ s.data_amount)

theorem inv_of_keep {s t : St} (h : Inv s)
    (k1 : t.data_amount = s.data_amount) (k2 : t.pwmOn = s.pwmOn) : Inv t :=
  ⟨by rw [k1]; exact h.1, by rw [k1, k2]; exact h.2⟩

/-- Every tick decrements `data_amount` exactly once (no wrap while
the counter is positive and in range). -/
theorem tick_data (s : St) (h1 : 1 ≤ s.data_amount) (h2 : s.data_amount < M32) :
    (tick s).data_amount = s.data_amount - 1 := by
  have hd : (s.data_amount + (M32 - 1)) % M32 = s.data_amount - 1 :=
    dec32_eq h1 h2
  simp only [tick, hd]
  repeat' split
  all_goals rfl

theorem tick_pwm_keep (s : St) (h1 : 2 ≤ s.data_amount) (h2 : s.data_amount < M32) :
    (tick s).pwmOn = s.pwmOn := by
  have hd : (s.data_amount + (M32 - 1)) % M32 = s.data_amount - 1 :=
    dec32_eq (by omega) h2
  simp only [tick, hd]
  rw [if_pos (show 0 < s.data_amount - 1 by omega)]
  repeat' split
  all_goals rfl

theorem recordingStep_keep (b : Buttons) (s : St) :
    (recordingStep b s).data_amount = s.data_amount ∧
    (recordingStep b s).pwmOn = s.pwmOn := by
  simp only [recordingStep]
  repeat' split
  all_goals exact ⟨rfl, rfl⟩

theorem playingStep_keep (file : List Nat) (b : Buttons) (s : St) :
    (playingStep file b s).data_amount = s.data_amount ∧
    ((playingStep file b s).pwmOn = true → s.pwmOn = true) := by
  simp only [playingStep, wave_read1]
  repeat' split
  all_goals first
    | exact ⟨rfl, fun h => h⟩
    | exact ⟨rfl, by intro h; simp at h⟩

theorem pageFull_keep (s : St) :
    (pageFull s).data_amount = s.data_amount ∧
    (pageFull s).pwmOn = s.pwmOn := by
  simp only [pageFull]
  split <;> exact ⟨rfl, rfl⟩

theorem pageEmpty_keep (s : St) :
    (pageEmpty s).data_amount = s.data_amount ∧
    (pageEmpty s).pwmOn = s.pwmOn := by
  simp only [pageEmpty]
  split <;> exact ⟨rfl, rfl⟩

theorem inv_stoppedStep (file : List Nat) (b : Buttons) (s : St) (h : Inv s) :
    Inv (stoppedStep file b s) := by
  obtain ⟨h1, h2⟩ := h
  simp only [stoppedStep]
  split
  · exact ⟨odd_mod_M32_lt file.length, fun _ => odd_mod_M32 file.length⟩
  · split
    · exact ⟨h1, h2⟩
    · exact ⟨h1, h2⟩

theorem inv_recordingStep (b : Buttons) (s : St) (h : Inv s) :
    Inv (recordingStep b s) := by
  obtain ⟨k1, k2⟩ := recordingStep_keep b s
  exact inv_of_keep h k1 k2

theorem inv_playingStep (file : List Nat) (b : Buttons) (s : St) (h : Inv s) :
    Inv (playingStep file b s) := by
  obtain ⟨k1, k2⟩ := playingStep_keep file b s
  exact ⟨by rw [k1]; exact h.1, by rw [k1]; intro hp; exact h.2 (k2 hp)⟩

theorem inv_tick (s : St) (h : Inv s) (hp : s.pwmOn = true) : Inv (tick s) := by
  obtain ⟨h1, h2⟩ := h
  have hda := h2 hp
  by_cases h1' : s.data_amount = 1
  · obtain ⟨d, -, pw, -, -, -, -, -, -, -, -, -⟩ := tick_halt s h1'
    refine ⟨by rw [d]; norm_num [M32], ?_⟩
    intro hh
    rw [pw] at hh
    simp at hh
  · have hd2 : 2 ≤ s.data_amount := by omega
    have hdd := tick_data s (by omega) h1
    have hpw := tick_pwm_keep s hd2 h1
    refine ⟨by rw [hdd]; omega, ?_⟩
    rw [hdd, hpw]
    intro _
    omega

theorem inv_loopStep (file : List Nat) (b : Buttons) (s : St) (h : Inv s) :
    Inv (loopStep file b s) := by
  simp only [loopStep]
  split
  · exact inv_stoppedStep file b s h
  · split
    · exact inv_recordingStep b s h
    · split
      · exact inv_playingStep file b s h
      · exact ⟨h.1, h.2⟩

theorem inv_init : Inv St0 := by
  refine ⟨by norm_num [St0, M32], ?_⟩
  intro h
  simp [St0] at h

/-- Every reachable state satisfies the counter invariant. -/
theorem reachable_inv (file : List Nat) (s : St) (h : Reachable file s) :
    Inv s := by
  unfold Reachable at h
  induction h with
  | refl => exact inv_init
  | tail hr hstep ih =>
      cases hstep with
      | loop btn => exact inv_loopStep file btn _ ih
      | isr st hp => exact inv_tick _ ih hp
      | pgFull st hp => exact inv_of_keep ih (pageFull_keep _).1 (pageFull_keep _).2
      | pgEmpty st hp => exact inv_of_keep ih (pageEmpty_keep _).1 (pageEmpty_keep _).2

/-!  ## Claim theorems  -/

/-- C6: for all unsigned 8-bit samples A and B, the interpolated
midpoint value written to the PWM duty-cycle register (`ocr4b_mid`,
the embedding of `OCR4B = (first_que+second_que)/2.0`) equals
`floor((A+B)/2)`, the floor of the exact arithmetic mean, computed
deterministically, and it fits the 8-bit register. -/
theorem midpoint_floor (a b : Nat) (ha : a < 256) (hb : b < 256) :
    ocr4b_mid a b = (a + b) / 2 ∧ (a + b) / 2 < 256 :=
  ⟨ocr4b_mid_eq a b, by omega⟩

theorem midpoint_floor_witness :
    ocr4b_mid 7 200 = (7 + 200) / 2 ∧ (7 + 200) / 2 < 256 :=
  midpoint_floor 7 200 (by decide) (by decide)

/-- C1 (counterexample): from the fetch phase with a staged pair and
ample remaining samples, three interrupt ticks emit only two output
values and leave the cursor mid-cycle (`played = 0`), so the handler
does not complete a full cursor cycle in three ticks. -/
theorem upsample_cycle_cex :
    (tick^[3] stCycleW).emitted.length = 2 ∧ (tick^[3] stCycleW).played = 0 := by
  rw [iterate_3]
  decide

/-- C1 (amended): for every fetched pair of stored samples the
playback interrupt handler completes one full cursor cycle in exactly
FOUR interrupt ticks — a fetch tick that dequeues the pair and emits
no output value, followed by three ticks emitting sample A, the
floored midpoint of A and B, then sample B — i.e. three output values
from two input samples per cycle (a 3:2 up-sampling of values at four
ticks per pair). -/
theorem upsample_cycle (s : St) (a b : Nat) (rest : List Nat)
    (hp : s.played ≠ 0) (hb : s.buffer = a :: b :: rest)
    (h1 : 5 ≤ s.data_amount) (h2 : s.data_amount < M32) :
    (tick s).emitted = s.emitted ∧
    (tick^[4] s).emitted = s.emitted ++
      [a % 256, ocr4b_mid (a % 256) (b % 256), b % 256] ∧
    (tick^[4] s).played ≠ 0 ∧
    (tick^[4] s).buffer = rest ∧
    (tick^[4] s).data_amount = s.data_amount - 4 := by
  obtain ⟨cd, cp, cb, ce, -, -⟩ := tick_cycle s hp h1 h2
  obtain ⟨-, -, -, -, -, -, -, e1, -, -⟩ := tick_fetch s hp (by omega) h2
  refine ⟨e1, ?_, by omega, ?_, cd⟩
  · rw [ce, hb]
    simp
  · rw [cb, hb]
    rfl

theorem upsample_cycle_witness :
    (tick stCycleW).emitted = stCycleW.emitted ∧
    (tick^[4] stCycleW).emitted = stCycleW.emitted ++
      [10 % 256, ocr4b_mid (10 % 256) (20 % 256), 20 % 256] ∧
    (tick^[4] stCycleW).played ≠ 0 ∧
    (tick^[4] stCycleW).buffer = [30] ∧
    (tick^[4] stCycleW).data_amount = stCycleW.data_amount - 4 :=
  upsample_cycle stCycleW 10 20 [30] (by decide) rfl (by decide) (by decide)

/-- C2 (counterexample): a playback session of N = 1 stored sample
(remaining-sample counter initialised to `2*1+1` as the play branch
does) emits one value before completion, not `ceil(1*3/2) = 2`. -/
theorem playback_session_cex :
    (tick^[2 * List.length [7] + 1] stOddX).emitted.length ≠
      (3 * List.length [7] + 1) / 2 := by
  decide

/-- C2 (amended): for every playback session of N stored byte-valued
samples started from the fetch phase with the remaining-sample counter
initialised to `2*N+1`, exactly `floor(N*3/2)` interpolated values are
emitted before the completion flag is raised (this equals
`ceil(N*3/2)` for even N and is one fewer for odd N), and the first
and last emitted values equal the first and last stored samples. -/
theorem playback_session (l : List Nat) (s : St)
    (hbytes : ∀ x ∈ l, x < 256)
    (hp : s.played ≠ 0) (hd : s.data_amount = 2 * l.length + 1)
    (hb : s.buffer = l) (he : s.emitted = [])
    (hm : 2 * l.length + 1 < M32) :
    (tick^[2 * l.length + 1] s).emitted.length = 3 * l.length / 2 ∧
    (tick^[2 * l.length + 1] s).stop = 1 ∧
    (tick^[2 * l.length + 1] s).emitted.head? = l.head? ∧
    (tick^[2 * l.length + 1] s).emitted.getLast? = l.getLast? := by
  obtain ⟨hem, hstop, -, -⟩ := session_run l s hp hd hb hm
  rw [hem, he, List.nil_append]
  refine ⟨interp_length l, hstop, ?_, ?_⟩
  · rw [interp_head l]
    cases l with
    | nil => rfl
    | cons a t =>
        simp [Nat.mod_eq_of_lt (hbytes a (by simp))]
  · rw [interp_getLast l]
    cases hLast : l.getLast? with
    | none => rfl
    | some x =>
        have hx : x ∈ l := by
          obtain ⟨h0, hxe⟩ :=
            List.mem_getLast?_eq_getLast (show x ∈ l.getLast? from hLast)
          rw [hxe]
          exact List.getLast_mem h0
        simp [Nat.mod_eq_of_lt (hbytes x hx)]

theorem playback_session_witness :
    (tick^[2 * List.length [7, 9, 200, 50] + 1] stSessW).emitted.length =
      3 * List.length [7, 9, 200, 50] / 2 ∧
    (tick^[2 * List.length [7, 9, 200, 50] + 1] stSessW).stop = 1 ∧
    (tick^[2 * List.length [7, 9, 200, 50] + 1] stSessW).emitted.head? =
      List.head? [7, 9, 200, 50] ∧
    (tick^[2 * List.length [7, 9, 200, 50] + 1] stSessW).emitted.getLast? =
      List.getLast? [7, 9, 200, 50] :=
  playback_session [7, 9, 200, 50] stSessW (by decide) (by decide) (by decide)
    rfl rfl (by decide)

/-!  ## Page-full callback: single calls and notification sequences  -/

theorem pageFull_more (s : St) (h1 : 2 ≤ s.pageCount) (h2 : s.pageCount < M16) :
    (pageFull s).pageCount = s.pageCount - 1 ∧ (pageFull s).newPage = 1 ∧
    (pageFull s).stop = s.stop ∧ (pageFull s).adcOn = s.adcOn := by
  have hd : (s.pageCount + (M16 - 1)) % M16 = s.pageCount - 1 :=
    dec16_eq (by omega) h2
  simp only [pageFull, hd]
  rw [if_neg (show ¬(s.pageCount - 1 = 0) by omega)]
  exact ⟨rfl, rfl, rfl, rfl⟩

theorem pageFull_last (s : St) (h1 : s.pageCount = 1) :
    (pageFull s).pageCount = 0 ∧ (pageFull s).stop = 1 ∧
    (pageFull s).adcOn = false ∧ (pageFull s).newPage = s.newPage := by
  have hd : (s.pageCount + (M16 - 1)) % M16 = 0 := by
    rw [h1]
    norm_num [M16]
  simp only [pageFull, hd]
  simp

theorem pageFull_wrap (s : St) (h0 : s.pageCount = 0) :
    (pageFull s).pageCount = M16 - 1 ∧ (pageFull s).newPage = 1 ∧
    (pageFull s).stop = s.stop ∧ (pageFull s).adcOn = s.adcOn := by
  have hd : (s.pageCount + (M16 - 1)) % M16 = M16 - 1 := by
    rw [h0]
    norm_num [M16]
  simp only [pageFull, hd]
  rw [if_neg (show ¬((M16 : Nat) - 1 = 0) by norm_num [M16])]
  exact ⟨rfl, rfl, rfl, rfl⟩

/-- The effect of a sequence of page-full notifications started from a
positive in-range counter: the counter counts down to zero, every
notification but the last raises only the page-ready flag and leaves
the driver running, and the last raises only the completion flag and
stops the driver. -/
theorem pageFull_seq (n : Nat) (s : St) (hn : 0 < n) (hlt : n < M16)
    (hpc : s.pageCount = n) :
    ∀ k, k ≤ n →
      (pageFull^[k] s).pageCount = n - k ∧
      (k < n → (pageFull^[k] s).stop = s.stop ∧
               (pageFull^[k] s).adcOn = s.adcOn) ∧
      (0 < k → k < n → (pageFull^[k] s).newPage = 1) ∧
      (k = n → (pageFull^[k] s).stop = 1 ∧ (pageFull^[k] s).adcOn = false ∧
               (pageFull^[k] s).newPage = (pageFull^[n - 1] s).newPage) := by
  intro k
  induction k with
  | zero =>
      intro _
      refine ⟨by simpa using hpc, fun _ => ⟨rfl, rfl⟩, by omega, ?_⟩
      intro h0
      exact absurd h0 (by omega)
  | succ k ih =>
      intro hk1
      have hk : k ≤ n := by omega
      obtain ⟨ihp, ihs, ihn, ihe⟩ := ih hk
      have hit : pageFull^[k + 1] s = pageFull (pageFull^[k] s) :=
        Function.iterate_succ_apply' pageFull k s
      by_cases hc : k + 1 < n
      · obtain ⟨mp, mn, ms, ma⟩ := pageFull_more (pageFull^[k] s)
          (by rw [ihp]; omega) (by rw [ihp]; omega)
        obtain ⟨hs0, ha0⟩ := ihs (by omega)
        refine ⟨by rw [hit, mp, ihp]; omega, ?_, ?_, ?_⟩
        · intro _
          exact ⟨by rw [hit, ms, hs0], by rw [hit, ma, ha0]⟩
        · intro _ _
          rw [hit, mn]
        · intro h
          exact absurd h (by omega)
      · have hceq : k + 1 = n := by omega
        obtain ⟨lp, ls, la, ln⟩ :=
          pageFull_last (pageFull^[k] s) (by rw [ihp]; omega)
        refine ⟨by rw [hit, lp]; omega, by intro h; omega, by intro _ h; omega,
                ?_⟩
        intro _
        refine ⟨by rw [hit, ls], by rw [hit, la], ?_⟩
        rw [hit, ln, show k = n - 1 by omega]

/-- C3: every page-full notification decrements the page counter
(`uint16` wrap at zero) and raises exactly one of the two shared flags
— the completion flag (with the sampling driver stopped) exactly when
the decremented counter is zero, the page-ready flag otherwise; and
over any sequence of notifications from a positive counter `n` (the
driver is stopped at the `n`-th, ending the sequence) the counter
reaches zero exactly at the last notification, the completion flag is
raised only there, and the page-ready flag is raised at every other
notification. -/
theorem pageFull_contract :
    (∀ s : St,
      (pageFull s).pageCount = (s.pageCount + (M16 - 1)) % M16 ∧
      ((s.pageCount + (M16 - 1)) % M16 = 0 →
        (pageFull s).stop = 1 ∧ (pageFull s).adcOn = false ∧
        (pageFull s).newPage = s.newPage) ∧
      ((s.pageCount + (M16 - 1)) % M16 ≠ 0 →
        (pageFull s).newPage = 1 ∧ (pageFull s).stop = s.stop ∧
        (pageFull s).adcOn = s.adcOn)) ∧
    (∀ (n : Nat) (s : St), 0 < n → n < M16 → s.pageCount = n →
      ∀ k, k ≤ n →
        ((pageFull^[k] s).pageCount = 0 ↔ k = n) ∧
        (k < n → (pageFull^[k] s).stop = s.stop ∧
                 (pageFull^[k] s).adcOn = s.adcOn) ∧
        (0 < k → k < n → (pageFull^[k] s).newPage = 1) ∧
        (k = n → (pageFull^[k] s).stop = 1 ∧ (pageFull^[k] s).adcOn = false ∧
                 (pageFull^[k] s).newPage = (pageFull^[n - 1] s).newPage)) := by
  constructor
  · intro s
    simp only [pageFull]
    split
    next hc => exact ⟨rfl, fun _ => ⟨rfl, rfl, rfl⟩, fun hn => absurd hc hn⟩
    next hc => exact ⟨rfl, fun h0 => absurd h0 hc, fun _ => ⟨rfl, rfl, rfl⟩⟩
  · intro n s hn hlt hpc k hk
    obtain ⟨hp, hs, hnp, he⟩ := pageFull_seq n s hn hlt hpc k hk
    exact ⟨by rw [hp]; omega, hs, hnp, he⟩

theorem pageFull_contract_witness :
    ((pageFull^[3] stRecW).pageCount = 0 ↔ (3 : Nat) = 3) ∧
    ((3 : Nat) < 3 → (pageFull^[3] stRecW).stop = stRecW.stop ∧
                     (pageFull^[3] stRecW).adcOn = stRecW.adcOn) ∧
    ((0 : Nat) < 3 → (3 : Nat) < 3 → (pageFull^[3] stRecW).newPage = 1) ∧
    ((3 : Nat) = 3 → (pageFull^[3] stRecW).stop = 1 ∧
      (pageFull^[3] stRecW).adcOn = false ∧
      (pageFull^[3] stRecW).newPage = (pageFull^[3 - 1] stRecW).newPage) :=
  pageFull_contract.2 3 stRecW (by decide) (by decide) rfl 3 (by decide)

/-- C9: invoking the page-full callback while `pageCount` is already
zero wraps the `uint16` counter to 65535 and raises the page-ready
flag, not the completion path; for any in-range counter the completion
branch (stop driver, raise completion flag) is taken exactly when the
pre-decrement value is one, and otherwise only the page-ready flag is
raised. -/
theorem pageFull_wraparound :
    (∀ s : St, s.pageCount = 0 →
      (pageFull s).pageCount = 65535 ∧ (pageFull s).newPage = 1 ∧
      (pageFull s).stop = s.stop ∧ (pageFull s).adcOn = s.adcOn) ∧
    (∀ s : St, s.pageCount < M16 →
      (s.pageCount = 1 →
        (pageFull s).stop = 1 ∧ (pageFull s).adcOn = false ∧
        (pageFull s).newPage = s.newPage) ∧
      (s.pageCount ≠ 1 →
        (pageFull s).newPage = 1 ∧ (pageFull s).stop = s.stop ∧
        (pageFull s).adcOn = s.adcOn)) := by
  constructor
  · intro s h0
    obtain ⟨a, b, c, d⟩ := pageFull_wrap s h0
    exact ⟨by rw [a]; norm_num [M16], b, c, d⟩
  · intro s hlt
    refine ⟨fun h1 => ?_, fun hne => ?_⟩
    · obtain ⟨-, b, c, d⟩ := pageFull_last s h1
      exact ⟨b, c, d⟩
    · by_cases h0 : s.pageCount = 0
      · obtain ⟨-, b, c, d⟩ := pageFull_wrap s h0
        exact ⟨b, c, d⟩
      · obtain ⟨-, b, c, d⟩ := pageFull_more s (by omega) hlt
        exact ⟨b, c, d⟩

theorem pageFull_wraparound_witness :
    (pageFull St0).pageCount = 65535 ∧ (pageFull St0).newPage = 1 ∧
    (pageFull St0).stop = St0.stop ∧ (pageFull St0).adcOn = St0.adcOn :=
  pageFull_wraparound.1 St0 rfl

/-- C4 (counterexample): the v1.1 (`main.c`) page-empty callback
raises the page-ready flag at `data_amount = 1024`, although 1024 does
not exceed the claimed four-page threshold `4*512 = 2048`, so the
claimed "if and only if" fails on that revision. -/
theorem pageEmpty_threshold_cex :
    (pageEmpty_v11 stEmptyX).newPage = 1 ∧ stEmptyX.newPage = 0 ∧
    ¬ 4 * pageSize < stEmptyX.data_amount := by
  decide

/-- C4 (amended): the v1.2/v1.3 page-empty callback raises the
page-ready flag exactly when the count of not-yet-consumed samples
exceeds four page-widths (2048) and otherwise changes nothing; the
v1.1 (`main.c`) revision has the same shape with a one-page threshold
(512).  In both, no state other than `newPage` changes. -/
theorem pageEmpty_threshold :
    (∀ s : St,
      (4 * pageSize < s.data_amount → pageEmpty s = { s with newPage := 1 }) ∧
      (¬ 4 * pageSize < s.data_amount → pageEmpty s = s)) ∧
    (∀ s : St,
      (512 < s.data_amount → pageEmpty_v11 s = { s with newPage := 1 }) ∧
      (¬ 512 < s.data_amount → pageEmpty_v11 s = s)) := by
  constructor
  · intro s
    constructor
    · intro h
      simp only [pageEmpty]
      rw [if_pos h]
    · intro h
      simp only [pageEmpty]
      rw [if_neg h]
  · intro s
    constructor
    · intro h
      simp only [pageEmpty_v11]
      rw [if_pos h]
    · intro h
      simp only [pageEmpty_v11]
      rw [if_neg h]

theorem pageEmpty_threshold_witness :
    pageEmpty stEmptyW = { stEmptyW with newPage := 1 } :=
  (pageEmpty_threshold.1 stEmptyW).1 (by decide)

/-- C5: on every reachable interrupt invocation (the timer interrupt
armed), the remaining-sample counter is positive and in `uint32`
range, the tick decrements it exactly once with no underflow, and on
the tick where it reaches zero the handler raises the completion flag
and halts the timer output without emitting a further value (emission
trace and duty-cycle register unchanged). -/
theorem playback_counter_safe (file : List Nat) (s : St)
    (hr : Reachable file s) (hp : s.pwmOn = true) :
    1 ≤ s.data_amount ∧ s.data_amount < M32 ∧
    (tick s).data_amount = s.data_amount - 1 ∧
    (s.data_amount = 1 →
      (tick s).stop = 1 ∧ (tick s).pwmOn = false ∧
      (tick s).emitted = s.emitted ∧ (tick s).ocr4b = s.ocr4b ∧
      (tick s).data_amount = 0) := by
  obtain ⟨h1, h2⟩ := reachable_inv file s hr
  have hda := h2 hp
  refine ⟨hda, h1, tick_data s hda h1, fun h1' => ?_⟩
  obtain ⟨d, hstop, hpwm, -, hem, hoc, -, -, -, -, -, -⟩ := tick_halt s h1'
  exact ⟨hstop, hpwm, hem, hoc, d⟩

theorem playback_counter_safe_witness :
    1 ≤ stPlayW.data_amount ∧ stPlayW.data_amount < M32 ∧
    (tick stPlayW).data_amount = stPlayW.data_amount - 1 ∧
    (stPlayW.data_amount = 1 →
      (tick stPlayW).stop = 1 ∧ (tick stPlayW).pwmOn = false ∧
      (tick stPlayW).emitted = stPlayW.emitted ∧
      (tick stPlayW).ocr4b = stPlayW.ocr4b ∧
      (tick stPlayW).data_amount = 0) :=
  playback_counter_safe fileW stPlayW
    (Relation.ReflTransGen.single (Step.loop bPlayW St0)) (by decide)

/-- C7 (counterexample): pressing play in a stopped state whose cursor
was left mid-pair by an earlier session (`played = 0`, both halves
marked played, stale staged bytes) starts playback without any cursor
reset: the session begins out of the fetch phase, and its first
interrupt tick dequeues nothing (buffer untouched) and re-emits the
stale staged byte 11 instead of fetching a fresh pair. -/
theorem playStart_cursor_cex :
    stStaleX2.played = 0 ∧ stStaleX2.buffer ≠ [] ∧
    (tick stStaleX2).buffer = stStaleX2.buffer ∧
    (tick stStaleX2).emitted = stStaleX2.emitted ++ [11] := by
  decide

/-- C7 (amended): the Stopped-to-Playing transition performs no reset
of the interpolation cursor: `played`, `first_que`, `second_que`,
`first_played` and `second_played` are all carried over unchanged into
the new session.  The first interrupt tick therefore begins by
dequeuing a fresh sample pair only when the inherited phase is already
the fetch phase (`played ≠ 0`), as in the initial global state. -/
theorem playStart_cursor (file : List Nat) (b : Buttons) (s : St)
    (hst : s.state = DVR_STOPPED) (hplay : b.playBtn = true) :
    (loopStep file b s).played = s.played ∧
    (loopStep file b s).first_que = s.first_que ∧
    (loopStep file b s).second_que = s.second_que ∧
    (loopStep file b s).first_played = s.first_played ∧
    (loopStep file b s).second_played = s.second_played ∧
    (loopStep file b s).state = DVR_PLAYING ∧
    (s.played ≠ 0 → 0 < file.length → 2 * file.length + 1 < M32 →
      (tick (loopStep file b s)).played = 0 ∧
      (tick (loopStep file b s)).buffer =
        (loopStep file b s).buffer.tail.tail ∧
      (tick (loopStep file b s)).emitted = (loopStep file b s).emitted) := by
  have hps : loopStep file b s =
      playStart file
        (if b.recBtn then { dvr_record s with state := DVR_RECORDING }
         else s) := by
    simp only [loopStep, stoppedStep]
    rw [if_pos hst, if_pos hplay]
  have h5 :
      (if b.recBtn then { dvr_record s with state := DVR_RECORDING }
       else s).played = s.played ∧
      (if b.recBtn then { dvr_record s with state := DVR_RECORDING }
       else s).first_que = s.first_que ∧
      (if b.recBtn then { dvr_record s with state := DVR_RECORDING }
       else s).second_que = s.second_que ∧
      (if b.recBtn then { dvr_record s with state := DVR_RECORDING }
       else s).first_played = s.first_played ∧
      (if b.recBtn then { dvr_record s with state := DVR_RECORDING }
       else s).second_played = s.second_played := by
    by_cases hrb : b.recBtn = true
    · simp [hrb, dvr_record]
    · simp [hrb]
  obtain ⟨c1, c2, c3, c4, c5⟩ := h5
  rw [hps]
  refine ⟨c1, c2, c3, c4, c5, rfl, ?_⟩
  intro hpl hlen hm
  have hd : (playStart file
      (if b.recBtn then { dvr_record s with state := DVR_RECORDING }
       else s)).data_amount = (file.length * 2 + 1) % M32 := rfl
  have hmod : (file.length * 2 + 1) % M32 = file.length * 2 + 1 :=
    Nat.mod_eq_of_lt (by have := hm; omega)
  have hpl' : (playStart file
      (if b.recBtn then { dvr_record s with state := DVR_RECORDING }
       else s)).played ≠ 0 := by
    have hc : (playStart file
        (if b.recBtn then { dvr_record s with state := DVR_RECORDING }
         else s)).played = s.played := c1
    omega
  obtain ⟨-, fp, -, -, -, -, fb, fe, -, -⟩ :=
    tick_fetch _ hpl' (by rw [hd, hmod]; omega)
      (by rw [hd]; exact Nat.mod_lt _ (by norm_num [M32]))
  exact ⟨fp, fb, fe⟩

theorem playStart_cursor_witness :
    (loopStep fileW bPlayW St0).played = St0.played ∧
    (tick (loopStep fileW bPlayW St0)).played = 0 ∧
    (tick (loopStep fileW bPlayW St0)).buffer =
      (loopStep fileW bPlayW St0).buffer.tail.tail := by
  obtain ⟨h1, -, -, -, -, -, h7⟩ := playStart_cursor fileW bPlayW St0 rfl rfl
  obtain ⟨f1, f2, -⟩ := h7 (by decide) (by decide) (by decide)
  exact ⟨h1, f1, f2⟩

/-- C8: one loop iteration in the Stopped state with neither the
record nor the play input asserted (in particular with only the stop
input asserted) changes nothing at all: the mode, the shared flags,
the page counter, the remaining-sample counter — the whole state — are
returned unchanged. -/
theorem stopped_noop (file : List Nat) (b : Buttons) (s : St)
    (hst : s.state = DVR_STOPPED) (hr : b.recBtn = false)
    (hp : b.playBtn = false) :
    loopStep file b s = s := by
  simp only [loopStep, stoppedStep]
  rw [if_pos hst, hr, hp]
  simp

theorem stopped_noop_witness : loopStep fileW bStopW St0 = St0 :=
  stopped_noop fileW bStopW St0 rfl rfl rfl

/-- C10: in the Stopped state with record and play asserted in the
same iteration, both independently tested branches run — the recording
actions first (buffer reset, `pageCount = 305`, file creation,
sampling start), then the playback actions (buffer reset, file open,
two-page pre-fill, interrupt start) — and the iteration ends in the
Playing mode with both the ADC driver and the timer interrupt running. -/
theorem stopped_both (file : List Nat) (b : Buttons) (s : St)
    (hst : s.state = DVR_STOPPED) (hr : b.recBtn = true)
    (hp : b.playBtn = true) :
    loopStep file b s =
      playStart file { dvr_record s with state := DVR_RECORDING } ∧
    (loopStep file b s).state = DVR_PLAYING ∧
    (loopStep file b s).pageCount = 305 ∧
    (loopStep file b s).adcOn = true ∧
    (loopStep file b s).pwmOn = true ∧
    (loopStep file b s).data_amount = (file.length * 2 + 1) % M32 ∧
    (loopStep file b s).events = s.events ++
      [Event.bufferReset, Event.waveCreate, Event.adcStart,
       Event.bufferReset, Event.waveOpen, Event.waveRead, Event.waveRead,
       Event.startPwm] := by
  have hps : loopStep file b s =
      playStart file { dvr_record s with state := DVR_RECORDING } := by
    simp only [loopStep, stoppedStep]
    rw [if_pos hst, hr, hp]
    simp
  refine ⟨hps, ?_, ?_, ?_, ?_, ?_, ?_⟩ <;> rw [hps]
  · rfl
  · rfl
  · rfl
  · rfl
  · rfl
  · simp [playStart, wave_read1, dvr_record, List.append_assoc]

theorem stopped_both_witness :
    (loopStep fileW bBothW St0).state = DVR_PLAYING ∧
    (loopStep fileW bBothW St0).pageCount = 305 ∧
    (loopStep fileW bBothW St0).events = St0.events ++
      [Event.bufferReset, Event.waveCreate, Event.adcStart,
       Event.bufferReset, Event.waveOpen, Event.waveRead, Event.waveRead,
       Event.startPwm] := by
  obtain ⟨-, h2, h3, -, -, -, h7⟩ := stopped_both fileW bBothW St0 rfl rfl rfl
  exact ⟨h2, h3, h7⟩

end DVR
